import Mathlib

/-!
# Verification of the `app-developer` listing-fee core

Shallow embedding of the listing-fee lifecycle of the `vultisig/app-developer`
repository: the fee store (Postgres tables and the sqlc queries in
`internal/db/queries/listing_fees.sql`, with the DDL of
`internal/db/migrations/developer/20260210000001_listing_fees.sql`), the worker
(`internal/worker/worker.go`), the HTTP handlers (`server.go`) and the
transaction syncer (`cmd/syncer`, package `syncer`).

Rows are modelled as Lean structures, the database as lists of rows, each SQL
statement as a pure function on that state (`CURRENT_TIMESTAMP` is passed in as
an explicit `now`), and the worker's external collaborators (policy service,
vault address derivation, EVM SDK, signer) as an environment record of
`Except`-valued functions.
-/

namespace AppDeveloper

/-- One row of the `listing_fees` table (struct `ListingFee` of
`internal/db/listing_fees.go`).  `amount` is `NUMERIC(78,0)` / `*big.Int`,
modelled as `Int`; timestamps are abstract instants modelled as `Nat`. -/
structure ListingFee where
  id : Nat
  policyId : Nat
  publicKey : String
  targetPluginId : String
  amount : Int
  destination : String
  txHash : Option String
  blockNumber : Option Int
  confirmations : Nat
  status : String
  submittedAt : Option Nat
  paidAt : Option Nat
  failureReason : Option String
  createdAt : Nat
  updatedAt : Nat
  deriving Repr, DecidableEq

/-- One row of the `plugin_policies` table (schema.sql). -/
structure PluginPolicy where
  id : Nat
  active : Bool
  deactivationReason : Option String
  deriving Repr, DecidableEq

/-- One row of the `tx_indexer` table (schema.sql): the transaction-status
oracle's view, keyed by policy id. -/
structure TxIndexerEntry where
  policyId : Nat
  statusOnchain : String
  lost : Bool
  deriving Repr, DecidableEq

/-- The database state: the three tables the listing-fee core touches. -/
structure DBState where
  fees : List ListingFee
  policies : List PluginPolicy
  txIndexer : List TxIndexerEntry
  deriving Repr, DecidableEq

/-- A row matches the scope used by the partial unique index
`idx_listing_fees_scope_pending` and the by-scope queries. -/
def sameScope (f : ListingFee) (publicKey targetPluginId : String) : Bool :=
  f.publicKey = publicKey && f.targetPluginId = targetPluginId

/-- A `pending` row in the given scope exists (the condition guarded by the
migration's partial unique index
`CREATE UNIQUE INDEX idx_listing_fees_scope_pending ON
listing_fees(public_key, target_plugin_id) WHERE status = 'pending'`). -/
def pendingScopeTaken (s : DBState) (publicKey targetPluginId : String) : Bool :=
  s.fees.any fun f => sameScope f publicKey targetPluginId && f.status = "pending"

/-- Model of `CreateListingFee` (queries/listing_fees.sql):
`INSERT INTO listing_fees (...) VALUES (...) ON CONFLICT (policy_id) DO NOTHING`.

Against the migrated schema the insert is resolved in three ways:
* a row with the same `policy_id` exists (the `UNIQUE` arbiter of the
  `ON CONFLICT` clause): do nothing, no error;
* the new row has status `pending` and a `pending` row with the same
  `(public_key, target_plugin_id)` scope exists: the partial unique index
  `idx_listing_fees_scope_pending` rejects the insert with a unique-violation
  error (it is not the conflict target, so `DO NOTHING` does not apply);
* otherwise the row is inserted.

`newId`/`now` stand for `gen_random_uuid()` and `CURRENT_TIMESTAMP` defaults. -/
def createListingFee (now newId : Nat) (policyId : Nat)
    (publicKey targetPluginId : String) (amount : Int) (destination : String)
    (status : String) (s : DBState) : Except String Unit × DBState :=
  if s.fees.any fun f => f.policyId = policyId then
    (Except.ok (), s)
  else if status = "pending" && pendingScopeTaken s publicKey targetPluginId then
    (Except.error "failed to create listing fee: unique violation on idx_listing_fees_scope_pending", s)
  else
    (Except.ok (),
      { s with
        fees := s.fees ++
          [{ id := newId, policyId := policyId, publicKey := publicKey,
             targetPluginId := targetPluginId, amount := amount,
             destination := destination, txHash := none, blockNumber := none,
             confirmations := 0, status := status, submittedAt := none,
             paidAt := none, failureReason := none, createdAt := now,
             updatedAt := now }] })

/-- Model of `GetListingFeeByPolicyID`: `SELECT ... WHERE policy_id = $1` against a
column that is `UNIQUE`; `scanListingFee` maps `ErrNoRows` to `nil, nil`,
modelled as `none`. -/
def getListingFeeByPolicyID (s : DBState) (policyId : Nat) : Option ListingFee :=
  s.fees.find? fun f => f.policyId = policyId

/-- The rows `GetListingFeeByScope` ranges over:
`WHERE public_key = $1 AND target_plugin_id = $2`. -/
def feesInScope (s : DBState) (publicKey targetPluginId : String) : List ListingFee :=
  s.fees.filter fun f => sameScope f publicKey targetPluginId

/-- The fold step realising `ORDER BY created_at DESC LIMIT 1`: keep a row of
maximal `created_at` (the first such row; SQL leaves the order of ties
unspecified). -/
def laterByCreatedAt (acc : Option ListingFee) (f : ListingFee) : Option ListingFee :=
  match acc with
  | none => some f
  | some b => if f.createdAt > b.createdAt then some f else some b

/-- Model of `GetListingFeeByScope`: `SELECT ... WHERE public_key = $1 AND
target_plugin_id = $2 ORDER BY created_at DESC LIMIT 1`; `ErrNoRows` becomes
`nil, nil` (`none`). -/
def getListingFeeByScope (s : DBState) (publicKey targetPluginId : String) :
    Option ListingFee :=
  (feesInScope s publicKey targetPluginId).foldl laterByCreatedAt none

/-- Model of `GetPendingListingFees`: `SELECT ... WHERE status = 'pending'`. -/
def getPendingListingFees (s : DBState) : List ListingFee :=
  s.fees.filter fun f => f.status = "pending"

/-- Model of `GetSubmittedListingFees`: `SELECT ... WHERE status = 'submitted'`. -/
def getSubmittedListingFees (s : DBState) : List ListingFee :=
  s.fees.filter fun f => f.status = "submitted"

/-- Model of `MarkAsSubmitted`: `UPDATE listing_fees SET status = 'submitted',
tx_hash = $2, submitted_at = CURRENT_TIMESTAMP, updated_at = CURRENT_TIMESTAMP
WHERE policy_id = $1 AND status = 'pending'`.  `pgx.Exec` reports no error when
zero rows match, so the operation is a total function on states. -/
def markAsSubmitted (now : Nat) (policyId : Nat) (txHash : String) (s : DBState) :
    DBState :=
  { s with
    fees := s.fees.map fun f =>
      if f.policyId = policyId && f.status = "pending" then
        { f with status := "submitted", txHash := some txHash,
                 submittedAt := some now, updatedAt := now }
      else f }

/-- Model of `MarkAsPaid`: `UPDATE ... SET status = 'paid', block_number = $2,
confirmations = $3, paid_at = ..., updated_at = ...
WHERE policy_id = $1 AND status = 'submitted'`. -/
def markAsPaid (now : Nat) (policyId : Nat) (blockNumber : Int)
    (confirmations : Nat) (s : DBState) : DBState :=
  { s with
    fees := s.fees.map fun f =>
      if f.policyId = policyId && f.status = "submitted" then
        { f with status := "paid", blockNumber := some blockNumber,
                 confirmations := confirmations, paidAt := some now,
                 updatedAt := now }
      else f }

/-- Model of `MarkAsFailed`: `UPDATE ... SET status = 'failed', failure_reason = $2,
updated_at = ... WHERE policy_id = $1 AND status IN ('pending', 'submitted')`. -/
def markAsFailed (now : Nat) (policyId : Nat) (reason : String) (s : DBState) :
    DBState :=
  { s with
    fees := s.fees.map fun f =>
      if f.policyId = policyId && (f.status = "pending" || f.status = "submitted") then
        { f with status := "failed", failureReason := some reason, updatedAt := now }
      else f }

/-- Model of `UpdateConfirmations`: `UPDATE ... SET confirmations = $2, updated_at = ...
WHERE policy_id = $1` (no status condition). -/
def updateConfirmations (now : Nat) (policyId : Nat) (confirmations : Nat)
    (s : DBState) : DBState :=
  { s with
    fees := s.fees.map fun f =>
      if f.policyId = policyId then
        { f with confirmations := confirmations, updatedAt := now }
      else f }

/-- Model of `DeactivatePolicy`: `UPDATE plugin_policies SET active = false,
deactivation_reason = $2 WHERE id = $1 AND active = true`. -/
def deactivatePolicy (policyId : Nat) (reason : String) (s : DBState) : DBState :=
  { s with
    policies := s.policies.map fun p =>
      if p.id = policyId && p.active then
        { p with active := false, deactivationReason := some reason }
      else p }

/-- Model of `GetPaidActivePolicyIDs`: `SELECT lf.policy_id FROM listing_fees lf JOIN
plugin_policies pp ON pp.id = lf.policy_id WHERE lf.status = 'paid' AND
pp.active = true`. -/
def getPaidActivePolicyIDs (s : DBState) : List Nat :=
  (s.fees.filter fun f =>
      f.status = "paid" && s.policies.any fun p => p.id = f.policyId && p.active).map
    fun f => f.policyId

/-- Model of `SyncPaidFees`: `UPDATE listing_fees lf SET status = 'paid', paid_at = ...,
updated_at = ... FROM tx_indexer ti WHERE ti.policy_id = lf.policy_id AND
lf.status = 'submitted' AND ti.status_onchain = 'SUCCESS'`. -/
def syncPaidFees (now : Nat) (s : DBState) : DBState :=
  { s with
    fees := s.fees.map fun f =>
      if f.status = "submitted" &&
          s.txIndexer.any (fun t => t.policyId = f.policyId && t.statusOnchain = "SUCCESS") then
        { f with status := "paid", paidAt := some now, updatedAt := now }
      else f }

/-- Model of `SyncFailedFees`: `UPDATE listing_fees lf SET status = 'failed',
failure_reason = CASE WHEN ti.lost THEN 'transaction lost' ELSE 'transaction
failed on-chain' END, updated_at = ... FROM tx_indexer ti WHERE
ti.policy_id = lf.policy_id AND lf.status = 'submitted' AND
(ti.status_onchain = 'FAIL' OR ti.lost = true)`.  When several `tx_indexer`
rows join one fee, SQL picks an arbitrary one for the `SET`; the model takes
the first matching row. -/
def syncFailedFees (now : Nat) (s : DBState) : DBState :=
  { s with
    fees := s.fees.map fun f =>
      if f.status = "submitted" then
        match s.txIndexer.find?
            (fun t => t.policyId = f.policyId && (t.statusOnchain = "FAIL" || t.lost)) with
        | some t =>
          { f with status := "failed",
                   failureReason :=
                     some (if t.lost then "transaction lost" else "transaction failed on-chain"),
                   updatedAt := now }
        | none => f
      else f }

/-- Model of `SyncSubmittedFees` (listing_fees.go): runs `SyncPaidFees` then
`SyncFailedFees`. -/
def syncSubmittedFees (now : Nat) (s : DBState) : DBState :=
  syncFailedFees now (syncPaidFees now s)

/-! ## The worker (`internal/worker/worker.go`) -/

/-- The fee configuration fields `Consumer.execute` reads
(`internal/config`, struct `FeeConfig`). -/
structure FeeConfig where
  vultTokenAddress : String
  treasuryAddress : String
  feeAmount : Int
  deriving Repr, DecidableEq

/-- What `policy.Service.GetPluginPolicy` returns, restricted to the fields the
worker uses. -/
structure PolicyInfo where
  publicKey : String
  pluginId : String
  deriving Repr, DecidableEq

/-- Observable side effects of one `Consumer.execute` run, in program order. -/
inductive Event where
  /-- The call `sdk.MakeTxTransferERC20(ctx, fromAddr, toAddr, tokenAddr, fee.Amount, 0)`:
  the arguments the transfer is built from. -/
  | buildTransfer (fromAddr toAddr tokenAddr : String) (amount : Int)
  /-- The hash `signerService.SignAndBroadcast` returned this transaction hash. -/
  | broadcast (txHash : String)
  /-- The write `db.MarkAsSubmitted(ctx, policyID, txHash)` was applied. -/
  | dbMarkSubmitted (policyId : Nat) (txHash : String)
  deriving Repr, DecidableEq

/-- The worker's external collaborators: the policy service, vault-based
address derivation, the EVM SDK and the signer, plus the fallibility of the
final `MarkAsSubmitted` database write. -/
structure ExecEnv where
  getPluginPolicy : Nat → Except String PolicyInfo
  deriveAddress : String → String → Except String String
  makeTxTransferERC20 : String → String → String → Int → Except String String
  signAndBroadcast : String → Except String String
  markSubmittedResult : Except String Unit

/-- Model of `Consumer.execute` (worker.go): load the record by policy id, refuse unless
its status is `pending`, resolve the payer address, build the ERC-20 transfer
from the record's `Amount`/`Destination` and the configured
`feeConfig.VultTokenAddress`, sign and broadcast, then `MarkAsSubmitted`.
Returns the Go error (if any), the resulting database state, and the trace of
external effects. -/
def execute (env : ExecEnv) (cfg : FeeConfig) (now policyId : Nat) (s : DBState) :
    Except String Unit × DBState × List Event :=
  match getListingFeeByPolicyID s policyId with
  | none => (Except.error "listing fee not found", s, [])
  | some fee =>
    if fee.status ≠ "pending" then
      (Except.error ("listing fee is not in pending state: " ++ fee.status), s, [])
    else
      match env.getPluginPolicy policyId with
      | Except.error e => (Except.error ("failed to get policy: " ++ e), s, [])
      | Except.ok pol =>
        match env.deriveAddress pol.publicKey pol.pluginId with
        | Except.error e => (Except.error ("failed to derive sender address: " ++ e), s, [])
        | Except.ok fromAddr =>
          match env.makeTxTransferERC20 fromAddr fee.destination
              cfg.vultTokenAddress fee.amount with
          | Except.error e =>
            (Except.error ("failed to build ERC-20 transfer: " ++ e), s,
             [Event.buildTransfer fromAddr fee.destination cfg.vultTokenAddress fee.amount])
          | Except.ok unsignedTx =>
            match env.signAndBroadcast unsignedTx with
            | Except.error e =>
              (Except.error ("failed to sign and broadcast: " ++ e), s,
               [Event.buildTransfer fromAddr fee.destination cfg.vultTokenAddress fee.amount])
            | Except.ok txHash =>
              match env.markSubmittedResult with
              | Except.error e =>
                (Except.error ("failed to mark as submitted: " ++ e), s,
                 [Event.buildTransfer fromAddr fee.destination cfg.vultTokenAddress fee.amount,
                  Event.broadcast txHash])
              | Except.ok _ =>
                (Except.ok (), markAsSubmitted now policyId txHash s,
                 [Event.buildTransfer fromAddr fee.destination cfg.vultTokenAddress fee.amount,
                  Event.broadcast txHash,
                  Event.dbMarkSubmitted policyId txHash])

/-- The loop body of `Consumer.executePendingFees` for one fee: call `execute`;
on any error, `MarkAsFailed(ctx, fee.PolicyID, executeErr.Error())`. -/
def processFee (env : ExecEnv) (cfg : FeeConfig) (now policyId : Nat)
    (s : DBState) : DBState × List Event :=
  match execute env cfg now policyId s with
  | (Except.ok _, s', tr) => (s', tr)
  | (Except.error e, s', tr) => (markAsFailed now policyId e s', tr)

/-- Model of `Consumer.executePendingFees`: snapshot the `pending` fees, then run the
loop body for each (state threads through the loop). -/
def executePendingFees (env : ExecEnv) (cfg : FeeConfig) (now : Nat)
    (s : DBState) : DBState × List Event :=
  (getPendingListingFees s).foldl
    (fun acc f =>
      let r := processFee env cfg now f.policyId acc.1
      (r.1, acc.2 ++ r.2))
    (s, [])

/-- Model of `Consumer.deactivatePaidPolicies`: read `GetPaidActivePolicyIDs` once, then
`DeactivatePolicy(id, "completed")` for each id. -/
def deactivatePaidPolicies (s : DBState) : DBState :=
  (getPaidActivePolicyIDs s).foldl
    (fun st policyId => deactivatePolicy policyId "completed" st) s

/-! ## The HTTP execute endpoint (`handleExecuteListingFee`) -/

/-- An asynq task enqueued by the server: the `ExecuteListingFeePayload`. -/
structure ExecTask where
  policyId : Nat
  deriving Repr, DecidableEq

/-- Model of `handleExecuteListingFee`: look the fee up by policy id; `404` when absent,
`409` (Conflict) when its status is not `pending`, otherwise enqueue an
`ExecuteListingFeePayload` task and answer `202` (Accepted).  The handler only
reads the database (the returned state is the input state) and broadcasts
nothing; execution happens later, in the queue consumer. -/
def handleExecuteListingFee (s : DBState) (policyId : Nat) :
    Nat × List ExecTask × DBState :=
  match getListingFeeByPolicyID s policyId with
  | none => (404, [], s)
  | some fee =>
    if fee.status ≠ "pending" then (409, [], s)
    else (202, [{ policyId := policyId }], s)

/-! ## The transaction syncer (`cmd/syncer`, package `syncer`) -/

/-- The latest transaction the oracle (`tx_indexer.Service.GetByPolicyID`)
reports for a policy; `statusOnChain` is a nullable column (`*string`). -/
structure OracleTx where
  statusOnChain : Option String
  lost : Bool
  deriving Repr, DecidableEq

/-- The loop body of `TxSyncer.sync` for one snapshot fee: fetch the latest
oracle transaction (`none` models both an empty result and a lookup error,
which `continue`); skip when `StatusOnChain` is `nil` (the `continue` before
the switch); on `SUCCESS` `MarkAsPaid`, on `FAIL` `MarkAsFailed` with reason
`"transaction failed on-chain"`; afterwards, if the transaction is `Lost`,
`MarkAsFailed` with reason `"transaction lost"`. -/
def txSyncerHandleFee (now : Nat) (oracle : Nat → Option OracleTx)
    (st : DBState) (fee : ListingFee) : DBState :=
  match oracle fee.policyId with
  | none => st
  | some tx =>
    match tx.statusOnChain with
    | none => st
    | some onchain =>
      let st1 :=
        if onchain = "SUCCESS" then markAsPaid now fee.policyId 0 1 st
        else if onchain = "FAIL" then
          markAsFailed now fee.policyId "transaction failed on-chain" st
        else st
      if tx.lost then markAsFailed now fee.policyId "transaction lost" st1
      else st1

/-- Model of `TxSyncer.sync` (part of `cmd/syncer`): snapshot the `submitted` fees and
run the loop body on each. -/
def txSyncerSync (now : Nat) (oracle : Nat → Option OracleTx) (s : DBState) :
    DBState :=
  (getSubmittedListingFees s).foldl (txSyncerHandleFee now oracle) s

/-! ## Helper lemmas and sample fixtures -/

/-- A sample fee row used by concrete witnesses; `id`/`policyId` are `pid`. -/
def sampleFee (pid : Nat) (pk tp st : String) (created : Nat) : ListingFee :=
  { id := pid, policyId := pid, publicKey := pk, targetPluginId := tp,
    amount := 100, destination := "0xdst", txHash := none, blockNumber := none,
    confirmations := 0, status := st, submittedAt := none, paidAt := none,
    failureReason := none, createdAt := created, updatedAt := created }

/-- A sample two-row database: a `pending` fee for policy `1` and a
`submitted` fee for policy `2`. -/
def sampleDB : DBState :=
  { fees := [sampleFee 1 "pk" "tp" "pending" 0,
             { sampleFee 2 "pk2" "tp2" "submitted" 0 with txHash := some "0xa" }],
    policies := [], txIndexer := [] }

theorem map_eq_self_of_mem {α : Type} {l : List α} {g : α → α}
    (h : ∀ a ∈ l, g a = a) : l.map g = l := by
  induction l with
  | nil => rfl
  | cons a t ih =>
    simp only [List.map_cons, h a (List.mem_cons_self a t),
      ih fun b hb => h b (List.mem_cons_of_mem a hb)]

theorem map_map_absorb {α : Type} {l : List α} {g1 g2 : α → α}
    (h : ∀ a ∈ l, g2 (g1 a) = g1 a) : (l.map g1).map g2 = l.map g1 := by
  apply map_eq_self_of_mem
  intro a ha
  obtain ⟨b, hb, rfl⟩ := List.mem_map.mp ha
  exact h b hb

/-! ## C2: the status mutations are conditional updates -/

/-- Claim C2: `MarkAsSubmitted`, `MarkAsPaid` and `MarkAsFailed` update only the
rows whose current status is in the operation's from-set (`pending`,
`submitted`, and `pending`-or-`submitted` respectively); applied with a stale
from-status they change nothing and raise no error (they are total functions
on states), and a second `MarkAsSubmitted` on the same record is always
absorbed: exactly one of two concurrent calls has an effect. -/
theorem markOperationsAreConditional (now1 now2 pid : Nat) (h1 h2 : String)
    (bn : Int) (cf : Nat) (r1 : String) (s : DBState) :
    ((∀ f ∈ s.fees, f.policyId = pid → f.status ≠ "pending") →
      markAsSubmitted now1 pid h1 s = s) ∧
    ((∀ f ∈ s.fees, f.policyId = pid → f.status ≠ "submitted") →
      markAsPaid now1 pid bn cf s = s) ∧
    ((∀ f ∈ s.fees, f.policyId = pid → f.status ≠ "pending" ∧ f.status ≠ "submitted") →
      markAsFailed now1 pid r1 s = s) ∧
    markAsSubmitted now2 pid h2 (markAsSubmitted now1 pid h1 s) =
      markAsSubmitted now1 pid h1 s := by
  refine ⟨fun h => ?_, fun h => ?_, fun h => ?_, ?_⟩
  · cases s with
    | mk fees pols ti =>
      simp only [markAsSubmitted, DBState.mk.injEq, and_true, true_and]
      apply map_eq_self_of_mem
      intro f hf
      rw [if_neg]
      simp only [Bool.and_eq_true, decide_eq_true_eq, not_and]
      intro hp hs
      exact h f hf hp hs
  · cases s with
    | mk fees pols ti =>
      simp only [markAsPaid, DBState.mk.injEq, and_true, true_and]
      apply map_eq_self_of_mem
      intro f hf
      rw [if_neg]
      simp only [Bool.and_eq_true, decide_eq_true_eq, not_and]
      intro hp hs
      exact h f hf hp hs
  · cases s with
    | mk fees pols ti =>
      simp only [markAsFailed, DBState.mk.injEq, and_true, true_and]
      apply map_eq_self_of_mem
      intro f hf
      rw [if_neg]
      simp only [Bool.and_eq_true, Bool.or_eq_true, decide_eq_true_eq, not_and]
      intro hp hs
      obtain ⟨hnp, hns⟩ := h f hf hp
      rcases hs with hs | hs
      · exact hnp hs
      · exact hns hs
  · cases s with
    | mk fees pols ti =>
      simp only [markAsSubmitted, DBState.mk.injEq, and_true, true_and]
      apply map_map_absorb
      intro f _
      by_cases hc : (f.policyId = pid && f.status = "pending") = true
      · rw [if_pos hc, if_neg]
        simp only [Bool.and_eq_true, decide_eq_true_eq, not_and]
        intro _ hs
        exact absurd hs (by simp)
      · rw [if_neg hc, if_neg hc]

/-- Witness for C2: a state whose only record for policy `7` is already
`submitted` makes `MarkAsSubmitted` a no-op; applying `MarkAsSubmitted` twice
to a `pending` record equals applying it once. -/
theorem markOperationsAreConditional_witness :
    markAsSubmitted 3 7 "0xh1"
      { fees := [{ id := 1, policyId := 7, publicKey := "pk",
                   targetPluginId := "tp", amount := 100, destination := "0xd",
                   txHash := some "0x0", blockNumber := none, confirmations := 0,
                   status := "submitted", submittedAt := some 1, paidAt := none,
                   failureReason := none, createdAt := 0, updatedAt := 1 }],
        policies := [], txIndexer := [] } =
      { fees := [{ id := 1, policyId := 7, publicKey := "pk",
                   targetPluginId := "tp", amount := 100, destination := "0xd",
                   txHash := some "0x0", blockNumber := none, confirmations := 0,
                   status := "submitted", submittedAt := some 1, paidAt := none,
                   failureReason := none, createdAt := 0, updatedAt := 1 }],
        policies := [], txIndexer := [] } ∧
    markAsSubmitted 4 7 "0xh2" (markAsSubmitted 3 7 "0xh1"
      { fees := [{ id := 1, policyId := 7, publicKey := "pk",
                   targetPluginId := "tp", amount := 100, destination := "0xd",
                   txHash := none, blockNumber := none, confirmations := 0,
                   status := "pending", submittedAt := none, paidAt := none,
                   failureReason := none, createdAt := 0, updatedAt := 0 }],
        policies := [], txIndexer := [] }) =
      markAsSubmitted 3 7 "0xh1"
      { fees := [{ id := 1, policyId := 7, publicKey := "pk",
                   targetPluginId := "tp", amount := 100, destination := "0xd",
                   txHash := none, blockNumber := none, confirmations := 0,
                   status := "pending", submittedAt := none, paidAt := none,
                   failureReason := none, createdAt := 0, updatedAt := 0 }],
        policies := [], txIndexer := [] } :=
  ⟨(markOperationsAreConditional 3 3 7 "0xh1" "0xh1" 0 0 "r" _).1 (by decide),
   (markOperationsAreConditional 3 4 7 "0xh1" "0xh2" 0 0 "r" _).2.2.2⟩

/-! ## C7: the execute endpoint is asynchronous -/

/-- Claim C7: `handleExecuteListingFee` never executes inline: it returns the
database unchanged in every case; on an unknown policy id it answers `404`
(NotFound) with nothing enqueued, on a record whose status is not `pending` it
answers `409` (Conflict) with nothing enqueued, and on a `pending` record it
answers `202` (Accepted) having enqueued exactly one asynchronous execution
task for that policy id. -/
theorem executeEndpointIsAsync (s : DBState) (pid : Nat) :
    (handleExecuteListingFee s pid).2.2 = s ∧
    (getListingFeeByPolicyID s pid = none →
      handleExecuteListingFee s pid = (404, [], s)) ∧
    (∀ fee, getListingFeeByPolicyID s pid = some fee → fee.status ≠ "pending" →
      handleExecuteListingFee s pid = (409, [], s)) ∧
    (∀ fee, getListingFeeByPolicyID s pid = some fee → fee.status = "pending" →
      handleExecuteListingFee s pid = (202, [{ policyId := pid }], s)) := by
  refine ⟨?_, fun h => ?_, fun fee h hs => ?_, fun fee h hs => ?_⟩
  · unfold handleExecuteListingFee
    cases hx : getListingFeeByPolicyID s pid with
    | none => rfl
    | some fee =>
      by_cases hs : fee.status = "pending"
      · simp [hs]
      · simp [hs]
  · simp [handleExecuteListingFee, h]
  · simp [handleExecuteListingFee, h, hs]
  · simp [handleExecuteListingFee, h, hs]

/-- Witness for C7: on a two-record database, the endpoint answers `404` for
an unknown id, `409` without enqueuing for a `submitted` record, and `202`
with one enqueued task for a `pending` record. -/
theorem executeEndpointIsAsync_witness :
    handleExecuteListingFee sampleDB 3 = (404, [], sampleDB) ∧
    handleExecuteListingFee sampleDB 2 = (409, [], sampleDB) ∧
    handleExecuteListingFee sampleDB 1 = (202, [{ policyId := 1 }], sampleDB) :=
  ⟨(executeEndpointIsAsync sampleDB 3).2.1 (by decide),
   (executeEndpointIsAsync sampleDB 2).2.2.1
     { sampleFee 2 "pk2" "tp2" "submitted" 0 with txHash := some "0xa" }
     (by decide) (by decide),
   (executeEndpointIsAsync sampleDB 1).2.2.2
     (sampleFee 1 "pk" "tp" "pending" 0) (by decide) (by decide)⟩

/-! ## C10: by-scope lookup -/

/-- The accumulator step of `getListingFeeByScope`'s fold, starting from a
seeded accumulator. -/
theorem foldLatest_some (l : List ListingFee) :
    ∀ b : ListingFee, ∃ r,
      l.foldl laterByCreatedAt (some b) = some r ∧
      (r = b ∨ r ∈ l) ∧ b.createdAt ≤ r.createdAt ∧
      ∀ x ∈ l, x.createdAt ≤ r.createdAt := by
  induction l with
  | nil => exact fun b => ⟨b, rfl, Or.inl rfl, le_refl _, by simp⟩
  | cons a t ih =>
    intro b
    by_cases hab : a.createdAt > b.createdAt
    · obtain ⟨r, hr, hmem, hle, hall⟩ := ih a
      refine ⟨r, ?_, ?_, ?_, ?_⟩
      · simpa [laterByCreatedAt, hab] using hr
      · rcases hmem with h | h
        · exact Or.inr (by simp [h])
        · exact Or.inr (List.mem_cons_of_mem a h)
      · exact le_trans (le_of_lt hab) hle
      · intro x hx
        rcases List.mem_cons.mp hx with h | h
        · exact h ▸ hle
        · exact hall x h
    · obtain ⟨r, hr, hmem, hle, hall⟩ := ih b
      refine ⟨r, ?_, ?_, hle, ?_⟩
      · simpa [laterByCreatedAt, hab] using hr
      · rcases hmem with h | h
        · exact Or.inl h
        · exact Or.inr (List.mem_cons_of_mem a h)
      · intro x hx
        rcases List.mem_cons.mp hx with h | h
        · exact h ▸ le_trans (le_of_not_lt hab) hle
        · exact hall x h

/-- The fold of `getListingFeeByScope` over a nonempty row list returns a row
of the list with maximal `created_at`. -/
theorem foldLatest_none (l : List ListingFee) (hne : l ≠ []) :
    ∃ r, l.foldl laterByCreatedAt none = some r ∧ r ∈ l ∧
      ∀ x ∈ l, x.createdAt ≤ r.createdAt := by
  cases l with
  | nil => exact absurd rfl hne
  | cons a t =>
    obtain ⟨r, hr, hmem, hle, hall⟩ := foldLatest_some t a
    refine ⟨r, hr, ?_, ?_⟩
    · rcases hmem with h | h
      · exact h ▸ List.mem_cons_self a t
      · exact List.mem_cons_of_mem a h
    · intro x hx
      rcases List.mem_cons.mp hx with h | h
      · exact h ▸ hle
      · exact hall x h

/-- Claim C10: `GetListingFeeByScope` returns `none` ("not found", not an error)
exactly when no record matches the `(public_key, target_plugin_id)` scope, and
otherwise returns a record of the scope whose `created_at` is greatest among
the scope's records (`ORDER BY created_at DESC LIMIT 1`). -/
theorem getByScopeReturnsLatest (s : DBState) (pk tp : String) :
    (getListingFeeByScope s pk tp = none ↔ feesInScope s pk tp = []) ∧
    ∀ r, getListingFeeByScope s pk tp = some r →
      r ∈ feesInScope s pk tp ∧
      ∀ x ∈ feesInScope s pk tp, x.createdAt ≤ r.createdAt := by
  refine ⟨⟨fun h => ?_, fun h => ?_⟩, fun r hr => ?_⟩
  · by_contra hne
    obtain ⟨r, hrf, _, _⟩ := foldLatest_none (feesInScope s pk tp) hne
    unfold getListingFeeByScope at h
    rw [hrf] at h
    exact Option.noConfusion h
  · unfold getListingFeeByScope
    rw [h]
    rfl
  · by_cases hne : feesInScope s pk tp = []
    · unfold getListingFeeByScope at hr
      rw [hne] at hr
      exact Option.noConfusion hr
    · obtain ⟨r0, hrf, hmem, hall⟩ := foldLatest_none _ hne
      unfold getListingFeeByScope at hr
      rw [hrf] at hr
      cases Option.some.inj hr
      exact ⟨hmem, hall⟩

/-- A sample database with two records in the scope `("pk","tp")`, created at
instants `1` and `5`. -/
def scopeDB : DBState :=
  { fees := [sampleFee 1 "pk" "tp" "failed" 1, sampleFee 2 "pk" "tp" "pending" 5],
    policies := [], txIndexer := [] }

/-- Witness for C10: on `scopeDB` a scope with no records yields `none`, and
the populated scope's lookup result dominates every record of the scope. -/
theorem getByScopeReturnsLatest_witness :
    getListingFeeByScope scopeDB "other" "tp" = none ∧
    sampleFee 2 "pk" "tp" "pending" 5 ∈ feesInScope scopeDB "pk" "tp" ∧
    ∀ x ∈ feesInScope scopeDB "pk" "tp",
      x.createdAt ≤ (sampleFee 2 "pk" "tp" "pending" 5).createdAt := by
  refine ⟨(getByScopeReturnsLatest scopeDB "other" "tp").1.mpr (by decide), ?_⟩
  exact (getByScopeReturnsLatest scopeDB "pk" "tp").2
    (sampleFee 2 "pk" "tp" "pending" 5) (by decide)

/-! ## C6: broadcast happens before the local status write -/

/-- An environment in which every external collaborator succeeds. -/
def okEnv : ExecEnv :=
  { getPluginPolicy := fun _ => Except.ok { publicKey := "pk", pluginId := "plug" },
    deriveAddress := fun _ _ => Except.ok "0xfrom",
    makeTxTransferERC20 := fun _ _ _ _ => Except.ok "unsignedTx",
    signAndBroadcast := fun _ => Except.ok "0xhash",
    markSubmittedResult := Except.ok () }

/-- A sample fee configuration. -/
def cfgSample : FeeConfig :=
  { vultTokenAddress := "0xTOK", treasuryAddress := "0xTREAS", feeAmount := 100 }

/-- A one-row database whose fee for policy `1` is `pending`. -/
def pendingDB : DBState :=
  { fees := [sampleFee 1 "pk" "tp" "pending" 0], policies := [], txIndexer := [] }

/-- Claim C6: In every `Consumer.execute` run, whenever the `submitted` status
write occurs it is preceded in the trace by a successful `SignAndBroadcast`
returning the very hash the write stores as `tx_reference`, the resulting
state is exactly `MarkAsSubmitted` with that hash, and a run that does not
finish successfully leaves the database untouched: the on-chain broadcast
strictly precedes the local status write. -/
theorem broadcastPrecedesWrite (env : ExecEnv) (cfg : FeeConfig) (now pid : Nat)
    (s : DBState) :
    (∀ h, Event.dbMarkSubmitted pid h ∈ (execute env cfg now pid s).2.2 →
      List.Sublist [Event.broadcast h, Event.dbMarkSubmitted pid h]
        (execute env cfg now pid s).2.2 ∧
      (∃ utx, env.signAndBroadcast utx = Except.ok h) ∧
      (execute env cfg now pid s).2.1 = markAsSubmitted now pid h s ∧
      (execute env cfg now pid s).1 = Except.ok ()) ∧
    ((execute env cfg now pid s).1 = Except.ok () →
      ∃ h, Event.dbMarkSubmitted pid h ∈ (execute env cfg now pid s).2.2) ∧
    ((execute env cfg now pid s).1 ≠ Except.ok () →
      (execute env cfg now pid s).2.1 = s) := by
  unfold execute
  split
  · exact ⟨by simp, by simp, fun _ => rfl⟩
  next fee hfee =>
    split
    · exact ⟨by simp, by simp, fun _ => rfl⟩
    · split
      · exact ⟨by simp, by simp, fun _ => rfl⟩
      next pol hpol =>
        split
        · exact ⟨by simp, by simp, fun _ => rfl⟩
        next fromAddr hder =>
          split
          · exact ⟨by simp, by simp, fun _ => rfl⟩
          next utx hmk =>
            split
            · exact ⟨by simp, by simp, fun _ => rfl⟩
            next txh hsb =>
              split
              · exact ⟨by simp, by simp, fun _ => rfl⟩
              next u hms =>
                refine ⟨fun h hmem => ?_, fun _ => ⟨txh, by simp⟩,
                        fun hne => absurd rfl hne⟩
                have hh : h = txh := by
                  simpa using hmem
                subst hh
                exact ⟨List.Sublist.cons _ (List.Sublist.refl _), ⟨utx, hsb⟩,
                       rfl, rfl⟩

/-- Witness for C6: the fully successful run on `pendingDB` emits the
broadcast of `0xhash` before the `submitted` write of `0xhash`. -/
theorem broadcastPrecedesWrite_witness :
    Event.dbMarkSubmitted 1 "0xhash" ∈ (execute okEnv cfgSample 5 1 pendingDB).2.2 ∧
    List.Sublist [Event.broadcast "0xhash", Event.dbMarkSubmitted 1 "0xhash"]
      (execute okEnv cfgSample 5 1 pendingDB).2.2 ∧
    (∃ utx, okEnv.signAndBroadcast utx = Except.ok "0xhash") ∧
    (execute okEnv cfgSample 5 1 pendingDB).2.1 =
      markAsSubmitted 5 1 "0xhash" pendingDB ∧
    (execute okEnv cfgSample 5 1 pendingDB).1 = Except.ok () := by
  refine ⟨by decide, ?_⟩
  obtain ⟨hsub, hex, hst, hres⟩ :=
    (broadcastPrecedesWrite okEnv cfgSample 5 1 pendingDB).1 "0xhash" (by decide)
  exact ⟨hsub, hex, hst, hres⟩

/-! ## C1: at most one pending fee per scope, enforced by the store -/

/-- Two fee rows live in different `(public_key, target_plugin_id)` scopes. -/
def differentScope (a b : ListingFee) : Prop :=
  ¬(a.publicKey = b.publicKey ∧ a.targetPluginId = b.targetPluginId)

instance (a b : ListingFee) : Decidable (differentScope a b) := by
  unfold differentScope
  infer_instance

/-- The §3 invariant: no two `pending` rows share a scope. -/
def atMostOnePendingPerScope (s : DBState) : Prop :=
  (getPendingListingFees s).Pairwise differentScope

instance (s : DBState) : Decidable (atMostOnePendingPerScope s) := by
  unfold atMostOnePendingPerScope
  infer_instance

/-- Claim C1: `CreateListingFee` preserves "at most one `pending` record per
scope": the migration's partial unique index plus the `ON CONFLICT
(policy_id) DO NOTHING` arbiter make the insert itself refuse a second
`pending` row for an occupied scope (the state comes back unchanged), so any
interleaving of two concurrent creations for the same scope — each insert
being atomic — leaves at most one `pending` record in that scope. -/
theorem pendingUniquePerScope (now newId pid : Nat) (pk tp : String)
    (amt : Int) (dst st : String) (s : DBState) :
    (atMostOnePendingPerScope s →
      atMostOnePendingPerScope (createListingFee now newId pid pk tp amt dst st s).2) ∧
    (st = "pending" → pendingScopeTaken s pk tp = true →
      (createListingFee now newId pid pk tp amt dst st s).2 = s) := by
  constructor
  · intro hinv
    unfold createListingFee
    split
    · exact hinv
    · split
      · exact hinv
      next hC =>
        unfold atMostOnePendingPerScope getPendingListingFees at hinv ⊢
        simp only [List.filter_append]
        by_cases hst : st = "pending"
        · have htaken : pendingScopeTaken s pk tp = false := by
            cases h : pendingScopeTaken s pk tp with
            | false => rfl
            | true => exact absurd (by simp [hst, h]) hC
          rw [List.pairwise_append]
          refine ⟨hinv, ?_, ?_⟩
          · simp only [List.filter_cons, List.filter_nil]
            split
            · exact List.Pairwise.cons (fun b hb => absurd hb (List.not_mem_nil b))
                List.Pairwise.nil
            · exact List.Pairwise.nil
          intro a ha b hb
          have ha' := List.mem_filter.mp ha
          simp only [List.filter_cons, List.filter_nil] at hb
          rw [if_pos (by simp [hst])] at hb
          have hbrow := List.mem_singleton.mp hb
          subst hbrow
          intro hcontra
          obtain ⟨hpk, htp⟩ := hcontra
          simp only at hpk htp
          have hany : pendingScopeTaken s pk tp = true := by
            unfold pendingScopeTaken
            rw [List.any_eq_true]
            refine ⟨a, ha'.1, ?_⟩
            simp only [sameScope, Bool.and_eq_true, decide_eq_true_eq]
            exact ⟨⟨hpk, htp⟩, by simpa using ha'.2⟩
          rw [htaken] at hany
          exact Bool.noConfusion hany
        · have hrow : ∀ r : ListingFee, r.status = st →
              List.filter (fun f => f.status = "pending") [r] = [] := by
            intro r hr
            simp [hr, hst]
          rw [hrow _ rfl, List.append_nil]
          exact hinv
  · intro hst htaken
    unfold createListingFee
    split
    · rfl
    · rw [if_pos (by simp [hst, htaken])]

/-- Witness for C1: starting from `pendingDB` (one `pending` fee in scope
`("pk","tp")`), a second creation for the same scope under a different policy
id leaves the state unchanged and the invariant intact. -/
theorem pendingUniquePerScope_witness :
    atMostOnePendingPerScope
      (createListingFee 1 9 2 "pk" "tp" 100 "0xdst" "pending" pendingDB).2 ∧
    (createListingFee 1 9 2 "pk" "tp" 100 "0xdst" "pending" pendingDB).2 =
      pendingDB :=
  ⟨(pendingUniquePerScope 1 9 2 "pk" "tp" 100 "0xdst" "pending" pendingDB).1
     (by decide),
   (pendingUniquePerScope 1 9 2 "pk" "tp" 100 "0xdst" "pending" pendingDB).2
     rfl (by decide)⟩

/-! ## C3: status transitions are monotonic -/

/-- One atomic store mutation, as issued by the worker, the server and the
syncer: every state change of the system is a composition of these. -/
inductive StoreStep : DBState → DBState → Prop where
  | create (now newId pid : Nat) (pk tp : String) (amt : Int) (dst st : String)
      (s : DBState) : StoreStep s (createListingFee now newId pid pk tp amt dst st s).2
  | markSubmitted (now pid : Nat) (txHash : String) (s : DBState) :
      StoreStep s (markAsSubmitted now pid txHash s)
  | markPaid (now pid : Nat) (bn : Int) (cf : Nat) (s : DBState) :
      StoreStep s (markAsPaid now pid bn cf s)
  | markFailed (now pid : Nat) (reason : String) (s : DBState) :
      StoreStep s (markAsFailed now pid reason s)
  | updateConf (now pid cf : Nat) (s : DBState) :
      StoreStep s (updateConfirmations now pid cf s)
  | deactivate (pid : Nat) (reason : String) (s : DBState) :
      StoreStep s (deactivatePolicy pid reason s)
  | syncPaid (now : Nat) (s : DBState) : StoreStep s (syncPaidFees now s)
  | syncFailed (now : Nat) (s : DBState) : StoreStep s (syncFailedFees now s)

/-- The §4.2 transition table, reflexively closed: stay put, or move along
`pending → submitted`, `pending → failed`, `submitted → paid`,
`submitted → failed`. -/
def statusTransitionOK (a b : String) : Prop :=
  a = b ∨ (a = "pending" ∧ (b = "submitted" ∨ b = "failed")) ∨
    (a = "submitted" ∧ (b = "paid" ∨ b = "failed"))

/-- Claim C3: Along every atomic store mutation, each fee record's status either
stays put or follows an edge of the §4.2 state machine — never backward — and
a record already in a terminal state (`paid` or `failed`) keeps its status
under every operation. -/
theorem statusesMonotonic (s s' : DBState) (hstep : StoreStep s s') (i : Nat)
    (f f' : ListingFee) (hf : s.fees.get? i = some f)
    (hf' : s'.fees.get? i = some f') :
    statusTransitionOK f.status f'.status ∧
    ((f.status = "paid" ∨ f.status = "failed") → f'.status = f.status) := by
  have same : f' = f → statusTransitionOK f.status f'.status ∧
      ((f.status = "paid" ∨ f.status = "failed") → f'.status = f.status) := by
    intro h
    subst h
    exact ⟨Or.inl rfl, fun _ => rfl⟩
  cases hstep with
  | create now newId pid pk tp amt dst st s =>
    apply same
    unfold createListingFee at hf'
    split at hf'
    · rw [hf'] at hf
      exact Option.some.inj hf
    · split at hf'
      · rw [hf'] at hf
        exact Option.some.inj hf
      · simp only at hf'
        rw [List.get?_append ((List.get?_eq_some.mp hf).1)] at hf'
        rw [hf'] at hf
        exact Option.some.inj hf
  | markSubmitted now pid txHash s =>
    simp only [markAsSubmitted, List.get?_map, hf, Option.map_some'] at hf'
    rw [Option.some.injEq] at hf'
    split at hf'
    next hc =>
      simp only [Bool.and_eq_true, decide_eq_true_eq] at hc
      subst hf'
      refine ⟨Or.inr (Or.inl ⟨hc.2, Or.inl rfl⟩), fun ht => ?_⟩
      rcases ht with ht | ht <;> rw [hc.2] at ht <;> exact absurd ht (by decide)
    next => exact same hf'.symm
  | markPaid now pid bn cf s =>
    simp only [markAsPaid, List.get?_map, hf, Option.map_some'] at hf'
    rw [Option.some.injEq] at hf'
    split at hf'
    next hc =>
      simp only [Bool.and_eq_true, decide_eq_true_eq] at hc
      subst hf'
      refine ⟨Or.inr (Or.inr ⟨hc.2, Or.inl rfl⟩), fun ht => ?_⟩
      rcases ht with ht | ht <;> rw [hc.2] at ht <;> exact absurd ht (by decide)
    next => exact same hf'.symm
  | markFailed now pid reason s =>
    simp only [markAsFailed, List.get?_map, hf, Option.map_some'] at hf'
    rw [Option.some.injEq] at hf'
    split at hf'
    next hc =>
      simp only [Bool.and_eq_true, Bool.or_eq_true, decide_eq_true_eq] at hc
      subst hf'
      refine ⟨?_, fun ht => ?_⟩
      · rcases hc.2 with hp | hp
        · exact Or.inr (Or.inl ⟨hp, Or.inr rfl⟩)
        · exact Or.inr (Or.inr ⟨hp, Or.inr rfl⟩)
      · rcases ht with ht | ht <;> rcases hc.2 with hp | hp <;> rw [hp] at ht <;>
          exact absurd ht (by decide)
    next => exact same hf'.symm
  | updateConf now pid cf s =>
    simp only [updateConfirmations, List.get?_map, hf, Option.map_some'] at hf'
    rw [Option.some.injEq] at hf'
    split at hf'
    · subst hf'
      exact ⟨Or.inl rfl, fun _ => rfl⟩
    · exact same hf'.symm
  | deactivate pid reason s =>
    apply same
    simp only [deactivatePolicy] at hf'
    rw [hf'] at hf
    exact Option.some.inj hf
  | syncPaid now s =>
    simp only [syncPaidFees, List.get?_map, hf, Option.map_some'] at hf'
    rw [Option.some.injEq] at hf'
    split at hf'
    next hc =>
      simp only [Bool.and_eq_true, decide_eq_true_eq] at hc
      subst hf'
      refine ⟨Or.inr (Or.inr ⟨hc.1, Or.inl rfl⟩), fun ht => ?_⟩
      rcases ht with ht | ht <;> rw [hc.1] at ht <;> exact absurd ht (by decide)
    next => exact same hf'.symm
  | syncFailed now s =>
    simp only [syncFailedFees, List.get?_map, hf, Option.map_some'] at hf'
    rw [Option.some.injEq] at hf'
    split at hf'
    next hc =>
      split at hf'
      · subst hf'
        refine ⟨Or.inr (Or.inr ⟨hc, Or.inr rfl⟩), fun ht => ?_⟩
        rcases ht with ht | ht <;> rw [hc] at ht <;> exact absurd ht (by decide)
      · exact same hf'.symm
    next => exact same hf'.symm

/-- Witness for C3: the `MarkAsSubmitted` step on `pendingDB` moves the single
record from `pending` to `submitted`, an edge of the state machine. -/
theorem statusesMonotonic_witness :
    statusTransitionOK (sampleFee 1 "pk" "tp" "pending" 0).status
      ({ sampleFee 1 "pk" "tp" "pending" 0 with
         status := "submitted", txHash := some "0xh",
         submittedAt := some 3, updatedAt := 3 } : ListingFee).status :=
  (statusesMonotonic pendingDB (markAsSubmitted 3 1 "0xh" pendingDB)
    (StoreStep.markSubmitted 3 1 "0xh" pendingDB) 0
    (sampleFee 1 "pk" "tp" "pending" 0)
    { sampleFee 1 "pk" "tp" "pending" 0 with
      status := "submitted", txHash := some "0xh",
      submittedAt := some 3, updatedAt := 3 }
    (by decide) (by decide)).1

/-! ## C9: the deactivation pass -/

/-- Some fee of the given policy is `paid`. -/
def hasPaidFee (s : DBState) (pid : Nat) : Bool :=
  s.fees.any fun f => f.policyId = pid && f.status = "paid"

/-- The deactivation a pass row receives: `active = false`,
`deactivation_reason = "completed"`. -/
def completedPolicy (p : PluginPolicy) : PluginPolicy :=
  { p with active := false, deactivationReason := some "completed" }

/-- The fold at the heart of `deactivatePaidPolicies`, over an arbitrary id
list. -/
def deactPass (ids : List Nat) (s : DBState) : DBState :=
  ids.foldl (fun st policyId => deactivatePolicy policyId "completed" st) s

theorem deactivatePaidPolicies_eq_deactPass (s : DBState) :
    deactivatePaidPolicies s = deactPass (getPaidActivePolicyIDs s) s := rfl

theorem deactPass_fees (ids : List Nat) : ∀ s : DBState,
    (deactPass ids s).fees = s.fees ∧ (deactPass ids s).txIndexer = s.txIndexer := by
  induction ids with
  | nil => exact fun s => ⟨rfl, rfl⟩
  | cons a t ih => exact fun s => ih (deactivatePolicy a "completed" s)

theorem deactPass_policies (ids : List Nat) : ∀ s : DBState,
    (deactPass ids s).policies = s.policies.map
      (fun p => if p.active && ids.contains p.id then completedPolicy p else p) := by
  induction ids with
  | nil =>
    intro s
    refine Eq.symm (map_eq_self_of_mem fun p _ => ?_)
    rw [if_neg]
    simp
  | cons a t ih =>
    intro s
    have step : deactPass (a :: t) s = deactPass t (deactivatePolicy a "completed" s) := rfl
    rw [step, ih]
    show ((s.policies.map fun p =>
        if p.id = a && p.active then completedPolicy p else p).map fun p =>
        if p.active && t.contains p.id then completedPolicy p else p) = _
    rw [List.map_map]
    apply List.map_congr_left
    intro p _
    simp only [Function.comp]
    by_cases h1 : (p.id = a && p.active) = true
    · rw [if_pos h1]
      simp only [Bool.and_eq_true, decide_eq_true_eq] at h1
      rw [if_neg (by simp [completedPolicy])]
      rw [if_pos (by simp [h1.1, h1.2, List.contains_cons])]
    · rw [if_neg h1]
      by_cases h2 : p.active = true
      · have hne : ¬p.id = a := fun he => h1 (by simp [he, h2])
        have hbeq : (p.id == a) = false := by
          rw [beq_eq_false_iff_ne]
          exact hne
        have hcont : (a :: t).contains p.id = t.contains p.id := by
          rw [List.contains_cons, hbeq, Bool.false_or]
        rw [hcont]
      · rw [if_neg (by simp [h2]), if_neg (by simp [h2])]

theorem getPaidActive_after_pass (s : DBState) :
    getPaidActivePolicyIDs (deactivatePaidPolicies s) = [] := by
  unfold getPaidActivePolicyIDs
  have hfees : (deactivatePaidPolicies s).fees = s.fees :=
    (deactPass_fees (getPaidActivePolicyIDs s) s).1
  rw [deactivatePaidPolicies_eq_deactPass] at hfees ⊢
  rw [hfees]
  have hfilter : (s.fees.filter fun f =>
      f.status = "paid" && (deactPass (getPaidActivePolicyIDs s) s).policies.any
        fun p => p.id = f.policyId && p.active) = [] := by
    rw [List.filter_eq_nil]
    intro f hf
    simp only [Bool.and_eq_true, decide_eq_true_eq, List.any_eq_true, not_and]
    intro hpaid hq
    obtain ⟨q, hqmem, hqid, hqact⟩ := hq
    rw [deactPass_policies] at hqmem
    obtain ⟨p, hpmem, hpq⟩ := List.mem_map.mp hqmem
    by_cases hcond : (p.active && (getPaidActivePolicyIDs s).contains p.id) = true
    · rw [if_pos hcond] at hpq
      rw [← hpq] at hqact
      simp [completedPolicy] at hqact
    · rw [if_neg hcond] at hpq
      subst hpq
      have hmemids : p.id ∈ getPaidActivePolicyIDs s := by
        unfold getPaidActivePolicyIDs
        rw [List.mem_map]
        refine ⟨f, ?_, hqid.symm⟩
        rw [List.mem_filter]
        refine ⟨hf, ?_⟩
        simp only [Bool.and_eq_true, decide_eq_true_eq, List.any_eq_true]
        exact ⟨hpaid, p, hpmem, by simp [hqid, hqact]⟩
      exact hcond (by simp [hqact, List.elem_iff, hmemids])
  rw [hfilter]
  rfl

/-- Claim C9: The deactivation pass touches no fee row; it deactivates, with
reason `"completed"`, exactly the policies that are active and have a `paid`
fee, leaving every other policy row unchanged; the single `DeactivatePolicy`
write is conditioned on `active = true`, so repeating it is a no-op; and the
pass as a whole is idempotent. -/
theorem deactivationPassExact (pid : Nat) (reason : String) (s : DBState) :
    (deactivatePaidPolicies s).fees = s.fees ∧
    (deactivatePaidPolicies s).policies = s.policies.map
      (fun p => if p.active && hasPaidFee s p.id then completedPolicy p else p) ∧
    deactivatePolicy pid reason (deactivatePolicy pid reason s) =
      deactivatePolicy pid reason s ∧
    deactivatePaidPolicies (deactivatePaidPolicies s) = deactivatePaidPolicies s := by
  refine ⟨(deactPass_fees _ s).1, ?_, ?_, ?_⟩
  · rw [deactivatePaidPolicies_eq_deactPass, deactPass_policies]
    apply List.map_congr_left
    intro p hpmem
    by_cases h2 : p.active = true
    · have hiff : (getPaidActivePolicyIDs s).contains p.id = hasPaidFee s p.id := by
        rw [Bool.eq_iff_iff]
        constructor
        · intro hcont
          have hmem := List.elem_iff.mp hcont
          unfold getPaidActivePolicyIDs at hmem
          obtain ⟨f, hfmem, hfid⟩ := List.mem_map.mp hmem
          obtain ⟨hfin, hfprop⟩ := List.mem_filter.mp hfmem
          simp only [Bool.and_eq_true, decide_eq_true_eq] at hfprop
          unfold hasPaidFee
          rw [List.any_eq_true]
          exact ⟨f, hfin, by simp [hfid, hfprop.1]⟩
        · intro hpaid
          unfold hasPaidFee at hpaid
          rw [List.any_eq_true] at hpaid
          obtain ⟨f, hfin, hfprop⟩ := hpaid
          simp only [Bool.and_eq_true, decide_eq_true_eq] at hfprop
          apply List.elem_iff.mpr
          unfold getPaidActivePolicyIDs
          rw [List.mem_map]
          refine ⟨f, ?_, hfprop.1⟩
          rw [List.mem_filter]
          refine ⟨hfin, ?_⟩
          simp only [Bool.and_eq_true, decide_eq_true_eq, List.any_eq_true]
          exact ⟨hfprop.2, p, hpmem, by simp [hfprop.1, h2]⟩
      rw [hiff]
    · have hpa : p.active = false := by simpa using h2
      rw [if_neg (by simp [hpa]), if_neg (by simp [hpa])]
  · cases s with
    | mk fees pols ti =>
      simp only [deactivatePolicy, DBState.mk.injEq, and_true, true_and]
      apply map_map_absorb
      intro p _
      by_cases hc : (p.id = pid && p.active) = true
      · rw [if_pos hc, if_neg]
        simp
      · rw [if_neg hc, if_neg hc]
  · conv_lhs => rw [deactivatePaidPolicies_eq_deactPass (deactivatePaidPolicies s)]
    rw [getPaidActive_after_pass]
    rfl

/-! ## C4: the executor failure path and already-submitted records -/

/-- Claim C4, the code bug: The worker error path applied after a concurrent
executor already submitted the fee: executor A runs `execute` successfully on
the `pending` record of `pendingDB` (it becomes `submitted`); executor B,
whose pending snapshot is stale, then runs the loop body `processFee` on the
same policy id.  B's `execute` correctly refuses (`NotPending`), but the
loop's `MarkAsFailed` — whose condition is `status IN ('pending',
'submitted')` — then overwrites the `submitted` record to `failed` with the
`NotPending` error as reason, contradicting §4.3's `pending → failed` failure
write and §8's "the second invocation observes Conflict/no-op". -/
theorem executorFailureHitsSubmittedRecord :
    ((execute okEnv cfgSample 5 1 pendingDB).2.1.fees.map fun f => f.status) =
      ["submitted"] ∧
    (((processFee okEnv cfgSample 6 1
        (execute okEnv cfgSample 5 1 pendingDB).2.1).1).fees.map
      fun f => f.status) = ["failed"] ∧
    (((processFee okEnv cfgSample 6 1
        (execute okEnv cfgSample 5 1 pendingDB).2.1).1).fees.map
      fun f => f.failureReason) =
      [some "listing fee is not in pending state: submitted"] := by decide

/-! ## C5: what the broadcast transfer is built from -/

/-- Variant of `cfgSample` with a different live VULT token address. -/
def cfgAltTok : FeeConfig :=
  { vultTokenAddress := "0xTOK2", treasuryAddress := "0xTREAS", feeAmount := 100 }

/-- Claim C5, counterexample: Two executor runs over the same database (hence
the identical fee record) but different live configurations build different
transfers: the asset (ERC-20 token address) argument of
`MakeTxTransferERC20` is `feeConfig.VultTokenAddress`, read from live
configuration at execution time — it is not encoded on the record. -/
theorem transferAssetFromLiveConfig_counterexample :
    (execute okEnv cfgSample 5 1 pendingDB).2.2 ≠
      (execute okEnv cfgAltTok 5 1 pendingDB).2.2 ∧
    Event.buildTransfer "0xfrom" "0xdst" "0xTOK" 100 ∈
      (execute okEnv cfgSample 5 1 pendingDB).2.2 ∧
    Event.buildTransfer "0xfrom" "0xdst" "0xTOK2" 100 ∈
      (execute okEnv cfgAltTok 5 1 pendingDB).2.2 := by decide

/-- Claim C5, amended: Whenever `execute` calls `MakeTxTransferERC20`, the
destination and the amount of the transfer are exactly the fee record's
`Destination` and `Amount`, while the asset (token address) is the live
configuration's `VultTokenAddress`. -/
theorem transferArgsProvenance (env : ExecEnv) (cfg : FeeConfig) (now pid : Nat)
    (s : DBState) (fr toA tok : String) (amt : Int) :
    Event.buildTransfer fr toA tok amt ∈ (execute env cfg now pid s).2.2 →
    ∃ fee, getListingFeeByPolicyID s pid = some fee ∧
      toA = fee.destination ∧ amt = fee.amount ∧ tok = cfg.vultTokenAddress := by
  unfold execute
  split
  · intro h
    simp at h
  next fee hfee =>
    split
    · intro h
      simp at h
    · split
      · intro h
        simp at h
      next pol hpol =>
        split
        · intro h
          simp at h
        next fromAddr hder =>
          split
          next e hmk =>
            intro h
            simp only [List.mem_singleton, Event.buildTransfer.injEq] at h
            exact ⟨fee, hfee, h.2.1, h.2.2.2, h.2.2.1⟩
          next utx hmk =>
            split
            next e hsb =>
              intro h
              simp only [List.mem_singleton, Event.buildTransfer.injEq] at h
              exact ⟨fee, hfee, h.2.1, h.2.2.2, h.2.2.1⟩
            next txh hsb =>
              split
              next e hms =>
                intro h
                simp only [List.mem_cons, List.not_mem_nil, or_false,
                  Event.buildTransfer.injEq] at h
                rcases h with h | h
                · exact ⟨fee, hfee, h.2.1, h.2.2.2, h.2.2.1⟩
                · exact absurd h (by simp)
              next u hms =>
                intro h
                simp only [List.mem_cons, List.not_mem_nil, or_false,
                  Event.buildTransfer.injEq] at h
                rcases h with h | h | h
                · exact ⟨fee, hfee, h.2.1, h.2.2.2, h.2.2.1⟩
                · exact absurd h (by simp)
                · exact absurd h (by simp)

/-- Witness for the amended C5: the successful run on `pendingDB` builds the
transfer with destination and amount from the record and the token address
from `cfgSample`. -/
theorem transferArgsProvenance_witness :
    ∃ fee, getListingFeeByPolicyID pendingDB 1 = some fee ∧
      "0xdst" = fee.destination ∧ (100 : Int) = fee.amount ∧
      "0xTOK" = cfgSample.vultTokenAddress :=
  transferArgsProvenance okEnv cfgSample 5 1 pendingDB "0xfrom" "0xdst" "0xTOK"
    100 (by decide)

/-! ## C8: how a lost transaction is recorded -/

/-- A one-record database whose fee for policy `1` is `submitted` with
transaction `0xdef`. -/
def submittedDB : DBState :=
  { fees := [{ sampleFee 1 "pk" "tp" "submitted" 0 with txHash := some "0xdef" }],
    policies := [], txIndexer := [] }

/-- An oracle reporting on-chain `FAIL` and `lost = true` simultaneously. -/
def lostFailOracle : Nat → Option OracleTx :=
  fun _ => some { statusOnChain := some "FAIL", lost := true }

/-- Claim C8, counterexample: Under the per-record `TxSyncer.sync`, a
`submitted` record whose oracle entry reports `lost = true` together with
on-chain `FAIL` ends `failed` with reason `"transaction failed on-chain"`, not
a reason indicating loss: the `FAIL` arm of the switch runs first and the
subsequent lost-write is a no-op on the already-`failed` record. -/
theorem lostMarkedDistinctly_counterexample :
    ((txSyncerSync 9 lostFailOracle submittedDB).fees.map fun f => f.status) =
      ["failed"] ∧
    ((txSyncerSync 9 lostFailOracle submittedDB).fees.map
      fun f => f.failureReason) = [some "transaction failed on-chain"] ∧
    some "transaction failed on-chain" ≠ (some "transaction lost" :
      Option String) := by decide

/-- Claim C8, amended: The batch settlement sync (`SyncFailedFees`) moves every
`submitted` record whose (unique) oracle entry reports `lost = true` to
`failed` with reason `"transaction lost"` — also when the entry reports
on-chain `FAIL`, thanks to the `CASE WHEN ti.lost` —, while the per-record
`TxSyncer` loop body records `"transaction lost"` when the oracle's on-chain
status is present and neither `SUCCESS` nor `FAIL`; the loss reason is
distinct from the on-chain-failure reason. -/
theorem lostMarkedDistinctly :
    (∀ (now : Nat) (s : DBState) (i : Nat) (f : ListingFee) (t : TxIndexerEntry),
      s.fees.get? i = some f → f.status = "submitted" →
      t ∈ s.txIndexer → t.policyId = f.policyId → t.lost = true →
      (∀ t' ∈ s.txIndexer, t'.policyId = f.policyId → t' = t) →
      ∃ f', (syncFailedFees now s).fees.get? i = some f' ∧
        f'.status = "failed" ∧ f'.failureReason = some "transaction lost") ∧
    (∀ (now : Nat) (oracle : Nat → Option OracleTx) (st : DBState)
      (fee : ListingFee) (tx : OracleTx) (onchain : String),
      oracle fee.policyId = some tx → tx.statusOnChain = some onchain →
      onchain ≠ "SUCCESS" → onchain ≠ "FAIL" → tx.lost = true →
      txSyncerHandleFee now oracle st fee =
        markAsFailed now fee.policyId "transaction lost" st) ∧
    "transaction lost" ≠ "transaction failed on-chain" := by
  refine ⟨?_, ?_, by decide⟩
  · intro now s i f t hf hsub htmem hpid hlost huniq
    have hfind : s.txIndexer.find?
        (fun t' => t'.policyId = f.policyId && (t'.statusOnchain = "FAIL" || t'.lost)) =
        some t := by
      cases hfind0 : s.txIndexer.find?
          (fun t' => t'.policyId = f.policyId && (t'.statusOnchain = "FAIL" || t'.lost)) with
      | none =>
        have := List.find?_eq_none.mp hfind0 t htmem
        exact absurd (by simp [hpid, hlost]) this
      | some t2 =>
        have hp := List.find?_some hfind0
        have hmem2 := List.mem_of_find?_eq_some hfind0
        simp only [Bool.and_eq_true, decide_eq_true_eq] at hp
        rw [huniq t2 hmem2 hp.1]
    refine ⟨{ f with status := "failed", failureReason := some "transaction lost", updatedAt := now }, ?_, rfl, rfl⟩
    simp only [syncFailedFees, List.get?_map, hf, Option.map_some']
    rw [Option.some.injEq]
    rw [if_pos hsub]
    rw [hfind]
    simp [hlost]
  · intro now oracle st fee tx onchain horacle hstatus hsucc hfail hlost
    simp only [txSyncerHandleFee, horacle, hstatus]
    rw [if_pos hlost, if_neg hsucc, if_neg hfail]

/-- A `submitted` fee whose oracle row in `tx_indexer` reports `lost`. -/
def submittedLostDB : DBState :=
  { fees := [{ sampleFee 1 "pk" "tp" "submitted" 0 with txHash := some "0xdef" }],
    policies := [],
    txIndexer := [{ policyId := 1, statusOnchain := "", lost := true }] }

/-- Witness for the amended C8: on `submittedLostDB` the batch sync yields
`failed` / `"transaction lost"`, and the `TxSyncer` loop body with a pending
(neither `SUCCESS` nor `FAIL`) but lost oracle transaction equals a
`MarkAsFailed` with the loss reason. -/
theorem lostMarkedDistinctly_witness :
    (∃ f', (syncFailedFees 9 submittedLostDB).fees.get? 0 = some f' ∧
      f'.status = "failed" ∧ f'.failureReason = some "transaction lost") ∧
    txSyncerHandleFee 9 (fun _ => some { statusOnChain := some "PENDING", lost := true })
        submittedDB (sampleFee 1 "pk" "tp" "submitted" 0) =
      markAsFailed 9 1 "transaction lost" submittedDB :=
  ⟨lostMarkedDistinctly.1 9 submittedLostDB 0
     { sampleFee 1 "pk" "tp" "submitted" 0 with txHash := some "0xdef" }
     { policyId := 1, statusOnchain := "", lost := true }
     (by decide) (by decide) (by decide) (by decide) (by decide) (by decide),
   lostMarkedDistinctly.2.1 9
     (fun _ => some { statusOnChain := some "PENDING", lost := true })
     submittedDB (sampleFee 1 "pk" "tp" "submitted" 0)
     { statusOnChain := some "PENDING", lost := true } "PENDING"
     rfl rfl (by decide) (by decide) rfl⟩

end AppDeveloper
